import Mathlib

/-!
Shallow embedding of the corncast observation/forecast pipeline
(src/corncast/corncast.py) for checking the natural-language specification.

Conventions of the embedding:
* Python floats are modelled by the rationals `ℚ`; every constant appearing
  in the source (3.28, 9/5, 32, 0.01) is exactly representable, and each
  statement proved or refuted below is insensitive to the float/rational gap
  at the concrete inputs used.
* pandas Series / DataFrame columns are modelled by Lean lists; a DataFrame
  is a list of column names together with rows of values.
* Python exceptions (`ValueError`, `KeyError`, a failed `assert`) are
  modelled by `Except` with one constructor per distinct failure site.
* Python substring containment `pat in s` and `s.split(sep)[0]` are modelled
  character-list-wise by `strContains` and `splitHead` below.
-/

namespace Corncast

/-- Python `l2.startswith(l1)` on character lists: `l1` is an initial
segment of `l2`. -/
def startsWithChars : List Char → List Char → Bool
  | [], _ => true
  | _ :: _, [] => false
  | a :: as, b :: bs => a == b && startsWithChars as bs

/-- Python `pat in s` on character lists: `pat` occurs contiguously in `l`. -/
def hasSubChars (pat : List Char) : List Char → Bool
  | [] => startsWithChars pat []
  | a :: rest => startsWithChars pat (a :: rest) || hasSubChars pat rest

/-- Python substring containment `pat in s` for strings. -/
def strContains (s pat : String) : Bool :=
  hasSubChars pat.toList s.toList

/-- The characters of `l` strictly before the first occurrence of the
(nonempty) pattern `pat`; all of `l` when `pat` does not occur. -/
def takeUntilSub (pat : List Char) : List Char → List Char
  | [] => []
  | a :: rest =>
    if startsWithChars pat (a :: rest) then []
    else a :: takeUntilSub pat rest

/-- Python `s.split(sep)[0]`: the part of `s` before the first occurrence of
`sep`, the whole of `s` when `sep` does not occur (for nonempty `sep`). -/
def splitHead (s sep : String) : String :=
  String.mk (takeUntilSub sep.toList s.toList)

/-- Specification-level contiguous-occurrence predicate on lists. -/
def SubList (pat l : List Char) : Prop :=
  ∃ l1 l2, l = l1 ++ pat ++ l2

/-- Specification-level substring predicate on strings: `pat` occurs
contiguously in `s` (the relation Python writes `pat in s`). -/
def SubStr (pat s : String) : Prop :=
  SubList pat.toList s.toList

theorem startsWithChars_iff (pat : List Char) : ∀ l : List Char,
    startsWithChars pat l = true ↔ ∃ r, l = pat ++ r := by
  induction pat with
  | nil =>
    intro l
    simp [startsWithChars]
  | cons a as ih =>
    intro l
    cases l with
    | nil =>
      simp [startsWithChars]
    | cons b bs =>
      simp only [startsWithChars, Bool.and_eq_true, beq_iff_eq, ih bs]
      constructor
      · rintro ⟨rfl, r, rfl⟩
        exact ⟨r, rfl⟩
      · rintro ⟨r, h⟩
        rw [List.cons_append] at h
        cases h
        exact ⟨rfl, r, rfl⟩

theorem hasSubChars_iff (pat : List Char) : ∀ l : List Char,
    hasSubChars pat l = true ↔ SubList pat l := by
  intro l
  induction l with
  | nil =>
    simp only [hasSubChars, startsWithChars_iff, SubList]
    constructor
    · rintro ⟨r, h⟩
      have hp := List.append_eq_nil.mp h.symm
      exact ⟨[], [], by simp [hp.1]⟩
    · rintro ⟨l1, l2, h⟩
      have h2 := h.symm
      have h3 := List.append_eq_nil.mp h2
      have h4 := List.append_eq_nil.mp h3.1
      exact ⟨[], by simp [h4.2]⟩
  | cons a rest ih =>
    simp only [hasSubChars, Bool.or_eq_true, startsWithChars_iff, ih, SubList]
    constructor
    · rintro (⟨r, h⟩ | ⟨l1, l2, h⟩)
      · exact ⟨[], r, by simpa using h⟩
      · exact ⟨a :: l1, l2, by simp [h]⟩
    · rintro ⟨l1, l2, h⟩
      cases l1 with
      | nil =>
        exact Or.inl ⟨l2, by simpa using h⟩
      | cons x l1 =>
        rw [List.cons_append] at h
        injection h with h1 h2
        exact Or.inr ⟨l1, l2, h2⟩

theorem subStr_iff (pat s : String) : SubStr pat s ↔ strContains s pat = true :=
  (hasSubChars_iff pat.toList s.toList).symm

/-- The one failure of `parse_windspeed` (Python: `ValueError("Input does not
look like a windspeed!")`; the specification calls it `InvalidFormat`). -/
inductive WindErr where
  | invalidFormat
deriving DecidableEq

/-- `parse_windspeed` from src/corncast/corncast.py: split a free-text wind
speed into the string-encoded speed and a unit label.  The source tests
containment of " mph", then "kmh", then "kmph", and splits on the
space-prefixed token of the branch taken. -/
def parse_windspeed (speeds : String) : Except WindErr (String × String) :=
  if strContains speeds " mph" then
    .ok (splitHead speeds " mph", "mph")
  else if strContains speeds "kmh" then
    .ok (splitHead speeds " kmh", "wmoUnit:km_h-1")
  else if strContains speeds "kmph" then
    .ok (splitHead speeds " kmph", "wmoUnit:km_h-1")
  else
    .error .invalidFormat

theorem pw_mph {s : String} (h : SubStr " mph" s) :
    parse_windspeed s = .ok (splitHead s " mph", "mph") := by
  rw [parse_windspeed, if_pos ((subStr_iff _ s).mp h)]

theorem pw_kmh {s : String} (h1 : ¬ SubStr " mph" s) (h2 : SubStr "kmh" s) :
    parse_windspeed s = .ok (splitHead s " kmh", "wmoUnit:km_h-1") := by
  rw [parse_windspeed]
  rw [if_neg (fun hc => h1 ((subStr_iff _ s).mpr hc))]
  rw [if_pos ((subStr_iff _ s).mp h2)]

theorem pw_kmph {s : String} (h1 : ¬ SubStr " mph" s) (h2 : ¬ SubStr "kmh" s)
    (h3 : SubStr "kmph" s) :
    parse_windspeed s = .ok (splitHead s " kmph", "wmoUnit:km_h-1") := by
  rw [parse_windspeed]
  rw [if_neg (fun hc => h1 ((subStr_iff _ s).mpr hc))]
  rw [if_neg (fun hc => h2 ((subStr_iff _ s).mpr hc))]
  rw [if_pos ((subStr_iff _ s).mp h3)]

theorem pw_fail {s : String} (h1 : ¬ SubStr " mph" s) (h2 : ¬ SubStr "kmh" s)
    (h3 : ¬ SubStr "kmph" s) :
    parse_windspeed s = .error .invalidFormat := by
  rw [parse_windspeed]
  rw [if_neg (fun hc => h1 ((subStr_iff _ s).mpr hc))]
  rw [if_neg (fun hc => h2 ((subStr_iff _ s).mpr hc))]
  rw [if_neg (fun hc => h3 ((subStr_iff _ s).mpr hc))]

instance {ε α : Type} [DecidableEq ε] [DecidableEq α] :
    DecidableEq (Except ε α) := fun a b =>
  match a, b with
  | .error e, .error f =>
    if h : e = f then .isTrue (h ▸ rfl) else .isFalse fun hh => h (Except.error.inj hh)
  | .ok x, .ok y =>
    if h : x = y then .isTrue (h ▸ rfl) else .isFalse fun hh => h (Except.ok.inj hh)
  | .error _, .ok _ => .isFalse Except.noConfusion
  | .ok _, .error _ => .isFalse Except.noConfusion

/-- Failures of `parse_elev`.  `lengthMismatch` and `bothMustBeSeries` are the
two explicit `ValueError`s of the input-shape handling; `cannotParseUnit` is
the `ValueError` of the unit dispatch (the specification calls it
`UnsupportedUnit`); `indexError` models `.iloc[0]` on an empty Series;
`ambiguousSeriesTruth` models the pandas `ValueError` raised when a Series
reaches the boolean context `uc == "m" or ...`. -/
inductive ElevErr where
  | lengthMismatch
  | bothMustBeSeries
  | indexError
  | cannotParseUnit
  | ambiguousSeriesTruth
deriving DecidableEq

/-- The `elev_value` argument of `parse_elev`: a Python float scalar or a
pandas Series of floats. -/
inductive ElevVal where
  | scalar (x : ℚ)
  | series (xs : List ℚ)
deriving DecidableEq

/-- The `unit_code` argument of `parse_elev`: a string scalar or a pandas
Series of strings.  The same type also describes the local variable `uc`
after the input-shape handling, which can still hold a whole Series. -/
inductive UnitArg where
  | scalar (u : String)
  | series (us : List String)
deriving DecidableEq

/-- Round half to even, as Python string formatting `:.0f` does. -/
def roundHalfEven (q : ℚ) : ℤ :=
  let f := ⌊q⌋
  if q - f < 1/2 then f
  else if q - f > 1/2 then f + 1
  else if f % 2 = 0 then f else f + 1

/-- The display string `f"{elev_ft:.0f} feet"` of `parse_elev`. -/
def formatFeet (q : ℚ) : String :=
  toString (roundHalfEven q) ++ " feet"

/-- Input-shape handling of `parse_elev` (the `isinstance` dispatch on lines
393-406 of src/corncast/corncast.py).  Yields the values `ev` and `uc` that
flow into the unit dispatch.  When `elev_value` is a Series and `unit_code`
is not, the source raises `ValueError("Both inputs must be pd.Series!")`; in
the mirrored case the `else` branch binds `uc` to the whole Series. -/
def elevShape (elev_value : ElevVal) (unit_code : UnitArg) :
    Except ElevErr (ℚ × UnitArg) :=
  match elev_value, unit_code with
  | .series xs, .series us =>
    if xs.length ≠ us.length then
      .error .lengthMismatch
    else
      match xs.head?, us.head? with
      | some ev, some uc => .ok (ev, .scalar uc)
      | _, _ => .error .indexError
  | .series _, .scalar _ => .error .bothMustBeSeries
  | .scalar x, .scalar u => .ok (x, .scalar u)
  | .scalar x, .series us => .ok (x, .series us)

/-- Unit dispatch of `parse_elev` (lines 408-414 of the source): the factor
the source applies to meters is the literal `3.28`.  A Series reaching this
boolean context raises in pandas ("The truth value of a Series is
ambiguous"). -/
def elevConvert (ev : ℚ) (uc : UnitArg) : Except ElevErr (ℚ × String) :=
  match uc with
  | .series _ => .error .ambiguousSeriesTruth
  | .scalar u =>
    if u = "m" ∨ u = "wmoUnit:m" then
      .ok ((328/100 : ℚ) * ev, formatFeet ((328/100 : ℚ) * ev))
    else if u = "ft" ∨ u = "feet" then
      .ok (ev, formatFeet ev)
    else
      .error .cannotParseUnit

/-- `parse_elev` from src/corncast/corncast.py: input-shape handling followed
by the unit dispatch. -/
def parse_elev (elev_value : ElevVal) (unit_code : UnitArg) :
    Except ElevErr (ℚ × String) :=
  (elevShape elev_value unit_code).bind fun p => elevConvert p.1 p.2

theorem roundHalfEven_intCast (n : ℤ) : roundHalfEven (n : ℚ) = n := by
  simp [roundHalfEven]

theorem formatFeet_intCast (n : ℤ) : formatFeet (n : ℚ) = toString n ++ " feet" := by
  rw [formatFeet, roundHalfEven_intCast]

/-- `Series.max()` over a column: `none` for the empty column (pandas yields
NaN there, and NaN compares false against every number). -/
def listMax? : List ℚ → Option ℚ
  | [] => none
  | a :: rest => some (rest.foldl max a)

/-- `Series.min()` over a column, `none` for the empty column. -/
def listMin? : List ℚ → Option ℚ
  | [] => none
  | a :: rest => some (rest.foldl min a)

/-- `Series.mean()` over a column (only ever applied to nonempty groups;
pandas yields NaN on an empty one). -/
def meanQ (xs : List ℚ) : ℚ := xs.sum / xs.length

/-- `.astype("int")` on a float scalar: truncation toward zero. -/
def truncQ (q : ℚ) : ℤ := if 0 ≤ q then ⌊q⌋ else ⌈q⌉

/-- One group handed to `analyze_obs`: the `tempF` column is always present
in a canonical table; the other three columns are present or absent as a
whole (`Option`), mirroring membership of their names in `obs_df.columns`. -/
structure ObsGroup where
  tempF : List ℚ
  precipLast3h : Option (List ℚ)
  probPrecip : Option (List ℚ)
  windSpeedInt : Option (List ℚ)
deriving DecidableEq

/-- The summary record built by `analyze_obs`: `cycle` and `mean_wind` are
unconditional in the source; the precipitation fields are only set when
their source column exists. -/
structure ObsSummary where
  cycle : Bool
  obs_precip : Option ℚ
  obs_precip_iszero : Option Bool
  prob_precip : Option ℚ
  mean_wind : ℤ
deriving DecidableEq

/-- The failure of `analyze_obs`: a pandas `KeyError` from indexing a column
that the frame does not have. -/
inductive AnalyzeErr where
  | keyError (col : String)
deriving DecidableEq

/-- `analyze_obs` from src/corncast/corncast.py.  The temperature extrema and
the two precipitation statistics follow the source lines 239-250; the final
line of the source indexes `obs_df["windSpeedInt"]` unconditionally, so a
group without that column raises `KeyError` after the guarded fields were
computed, and no summary is returned. -/
def analyze_obs (g : ObsGroup) : Except AnalyzeErr ObsSummary :=
  let above := match listMax? g.tempF with
    | some m => decide (m > 32)
    | none => false
  let below := match listMin? g.tempF with
    | some m => decide (m < 32)
    | none => false
  let cycle := above && below
  let op := g.precipLast3h.map List.sum
  let opz := op.map fun s => decide (s < 1/100)
  let pp := g.probPrecip.map fun xs => (listMax? xs).getD 0
  match g.windSpeedInt with
  | none => .error (.keyError "windSpeedInt")
  | some ws => .ok ⟨cycle, op, opz, pp, truncQ (meanQ ws)⟩

/-- The `tempF` column creation of `make_obs_df` (source lines 311-318): for
the default column name, inspect the paired unit-code column in bulk; the
two `.all()` tests of the source are `List.all` here. -/
def tempF_col (obs_tcol : String) (tvals : List ℚ) (unitCodes : List String) :
    List ℚ :=
  if obs_tcol = "temperature.value" then
    if unitCodes.all (fun u => decide (u = "wmoUnit:degC"))
        || unitCodes.all (fun u => decide (u = "C")) then
      tvals.map fun c => c * (9/5) + 32
    else tvals
  else tvals

/-- The failure of the single-station assertion of `make_obs_df` (source
line 309); the specification calls it `MultiStationViolation`. -/
inductive MakeObsErr where
  | multiStationViolation
deriving DecidableEq

/-- The columns of the reduced observation frame that the last stages of
`make_obs_df` read: the `station` column and the temperature value/unit
pair. -/
structure ObsBatch where
  stations : List String
  tempVals : List ℚ
  tempUnits : List String
deriving DecidableEq

/-- The tail of `make_obs_df` (source lines 308-320): assert that the
`station` column holds exactly one distinct value (`len(unique) == 1`), then
build the `tempF` column.  On violation the assertion aborts the call and no
table is returned. -/
def make_obs_df_core (obs_tcol : String) (b : ObsBatch) :
    Except MakeObsErr (List ℚ) :=
  if b.stations.dedup.length = 1 then
    .ok (tempF_col obs_tcol b.tempVals b.tempUnits)
  else
    .error .multiStationViolation

/-- A cell of an observation DataFrame. -/
inductive Val where
  | str (s : String)
  | num (q : ℚ)
  | null
deriving DecidableEq

/-- An observation DataFrame: named columns and rows of cells (row `r` holds
the value of column `cols[i]` at position `i`). -/
structure Table where
  cols : List String
  rows : List (List Val)
deriving DecidableEq

/-- Boolean membership of a column name in a column list. -/
def memB (c : String) : List String → Bool
  | [] => false
  | a :: rest => if a = c then true else memB c rest

/-- Index of the first occurrence of a column name in a column list. -/
def idxOf (c : String) : List String → Nat
  | [] => 0
  | a :: rest => if a = c then 0 else idxOf c rest + 1

/-- The column predicate of `reduce_obs` (source lines 196-209): keep any
column whose name contains one of the five measurement words and does not
contain `qualityControl`. -/
def keyword_match (c : String) : Bool :=
  (strContains c "temperature"
      || strContains c "dewpoint"
      || strContains c "precipitation"
      || strContains c "wind"
      || strContains c "elevation")
    && !(strContains c "qualityControl")

/-- The `keep_cols` list of `reduce_obs`: `station` and `timestamp` first,
then the matching columns in source order. -/
def keep_cols (cs : List String) : List String :=
  ["station", "timestamp"] ++ cs.filter keyword_match

/-- One row of `obs_df[keep_cols]`: the row's value at each kept column,
looked up by the column's position in the source header. -/
def projRow (cs keep : List String) (row : List Val) : List Val :=
  keep.map fun c => ((row.get? (idxOf c cs)).getD .null)

/-- The failure of `reduce_obs`: the pandas `KeyError` raised by
`obs_df[keep_cols]` when a requested label is absent. -/
inductive ReduceErr where
  | keyError
deriving DecidableEq

/-- `reduce_obs` from src/corncast/corncast.py: project the frame onto
`keep_cols`.  pandas raises `KeyError` when a requested label is missing;
since the matching labels come from the frame itself, only `station` and
`timestamp` can be missing. -/
def reduce_obs (t : Table) : Except ReduceErr Table :=
  if (keep_cols t.cols).all (fun c => memB c t.cols) then
    .ok ⟨keep_cols t.cols, t.rows.map (projRow t.cols (keep_cols t.cols))⟩
  else
    .error .keyError

theorem memB_iff (c : String) : ∀ cs : List String, memB c cs = true ↔ c ∈ cs := by
  intro cs
  induction cs with
  | nil => simp [memB]
  | cons a rest ih =>
    by_cases h : a = c
    · simp [memB, h]
    · simp only [memB, if_neg h, ih, List.mem_cons]
      constructor
      · exact Or.inr
      · rintro (rfl | hm)
        · exact absurd rfl h
        · exact hm

theorem idxOf_get? {c : String} : ∀ {cs : List String}, c ∈ cs →
    cs.get? (idxOf c cs) = some c := by
  intro cs
  induction cs with
  | nil => intro h; cases h
  | cons a rest ih =>
    intro h
    by_cases ha : a = c
    · simp [idxOf, ha]
    · have hc : c ∈ rest := by
        cases h with
        | head => exact absurd rfl ha
        | tail _ hm => exact hm
      have h5 := ih hc
      rw [List.get?_eq_getElem?] at h5
      simp [idxOf, ha, h5]

theorem projRow_map_self (keep : List String) (f : String → Val) :
    projRow keep keep (keep.map f) = keep.map f := by
  unfold projRow
  apply List.map_congr_left
  intro c hc
  have h5 := idxOf_get? hc
  rw [List.get?_eq_getElem?] at h5
  rw [List.get?_eq_getElem?, List.getElem?_map, h5]
  rfl

theorem keyword_match_station : keyword_match "station" = false := by decide

theorem keyword_match_timestamp : keyword_match "timestamp" = false := by decide

theorem keep_cols_fixed (cs : List String) :
    keep_cols (keep_cols cs) = keep_cols cs := by
  have h1 : List.filter keyword_match ["station", "timestamp"] = [] := by decide
  have h2 : List.filter keyword_match (List.filter keyword_match cs)
      = List.filter keyword_match cs := by
    rw [List.filter_filter]
    simp only [Bool.and_self]
  simp only [keep_cols, List.filter_append, h1, List.nil_append, h2]

theorem reduce_guard (cs : List String) :
    ((keep_cols cs).all (fun c => memB c cs) = true)
      ↔ ("station" ∈ cs ∧ "timestamp" ∈ cs) := by
  rw [keep_cols, List.all_append]
  simp only [Bool.and_eq_true, List.all_eq_true, memB_iff]
  constructor
  · rintro ⟨h1, _⟩
    exact ⟨h1 _ (by simp), h1 _ (by simp)⟩
  · rintro ⟨h1, h2⟩
    refine ⟨?_, ?_⟩
    · intro c hc
      simp only [List.mem_cons, List.not_mem_nil, or_false] at hc
      rcases hc with rfl | rfl
      · exact h1
      · exact h2
    · intro c hc
      exact List.mem_of_mem_filter hc

/-- C1: `parse_elev` applied to the failing input `(1000.0, "m")` of the
claim.  The source multiplies by the literal `3.28`, so the call returns
`(3280.0, "3280 feet")`, not the claimed `(3280.84, "3281 feet")` (which is
what the repository's own unit test `test_parse_elev` asserts); the
`"ft"` pass-through of the claim does hold. -/
theorem c1_parse_elev_meters :
    parse_elev (.scalar 1000) (.scalar "m") = .ok (3280, "3280 feet")
    ∧ parse_elev (.scalar 1000) (.scalar "ft") = .ok (1000, "1000 feet")
    ∧ (((3280 : ℚ), ("3280 feet" : String)) ≠ ((328084/100 : ℚ), "3281 feet")) := by
  refine ⟨?_, ?_, ?_⟩
  · have h1 : (328/100 : ℚ) * 1000 = ((3280 : ℤ) : ℚ) := by norm_num
    rw [parse_elev, elevShape]
    show elevConvert 1000 (.scalar "m") = _
    rw [elevConvert]
    simp only [h1, formatFeet_intCast]
    norm_num
    rfl
  · rw [parse_elev, elevShape]
    show elevConvert 1000 (.scalar "ft") = _
    rw [elevConvert,
      if_neg (by decide : ¬(("ft" : String) = "m" ∨ ("ft" : String) = "wmoUnit:m"))]
    rw [if_pos (Or.inl rfl : ("ft" : String) = "ft" ∨ ("ft" : String) = "feet")]
    have h1 : (1000 : ℚ) = ((1000 : ℤ) : ℚ) := by norm_num
    rw [h1, formatFeet_intCast]
    rfl
  · intro h
    have h2 := congrArg Prod.snd h
    exact absurd h2 (by decide)

/-- C2 counterexample: `"10kmh"` contains the unit token `"kmh"` and is
accepted, but the returned speed is the whole input `"10kmh"`, not the
substring `"10"` preceding the token (the source splits on `" kmh"` with a
leading space), and the unit label is the literal `"wmoUnit:km_h-1"`, not
`"km/h (WMO)"`. -/
theorem c2_counterexample :
    parse_windspeed "10kmh" = .ok ("10kmh", "wmoUnit:km_h-1")
    ∧ splitHead "10kmh" "kmh" = "10"
    ∧ (Except.ok ("10kmh", "wmoUnit:km_h-1") : Except WindErr (String × String))
        ≠ .ok ("10", "km/h (WMO)") := by
  refine ⟨rfl, rfl, ?_⟩
  decide

/-- C2 amended: `parse_wind_speed` succeeds exactly when the input contains
`" mph"`, `"kmh"`, or `"kmph"`; on success the string-encoded speed is the
part of the input before the first occurrence of the space-prefixed token
(`" mph"`, `" kmh"`, `" kmph"` respectively — the whole input when
`"kmh"`/`"kmph"` occurs with no preceding space), the unit label is `"mph"`
for mph and the literal `"wmoUnit:km_h-1"` for kmh/kmph, and any other
string fails with the `InvalidFormat` error. -/
theorem c2_parse_windspeed_spec (s : String) :
    ((∃ p, parse_windspeed s = .ok p)
        ↔ (SubStr " mph" s ∨ SubStr "kmh" s ∨ SubStr "kmph" s))
    ∧ (SubStr " mph" s → parse_windspeed s = .ok (splitHead s " mph", "mph"))
    ∧ (¬ SubStr " mph" s → SubStr "kmh" s →
        parse_windspeed s = .ok (splitHead s " kmh", "wmoUnit:km_h-1"))
    ∧ (¬ SubStr " mph" s → ¬ SubStr "kmh" s → SubStr "kmph" s →
        parse_windspeed s = .ok (splitHead s " kmph", "wmoUnit:km_h-1"))
    ∧ (¬ SubStr " mph" s → ¬ SubStr "kmh" s → ¬ SubStr "kmph" s →
        parse_windspeed s = .error .invalidFormat) := by
  refine ⟨⟨?_, ?_⟩, pw_mph, pw_kmh, pw_kmph, pw_fail⟩
  · rintro ⟨p, hp⟩
    by_contra hno
    push_neg at hno
    rw [pw_fail hno.1 hno.2.1 hno.2.2] at hp
    exact Except.noConfusion hp
  · rintro (h | h | h)
    · exact ⟨_, pw_mph h⟩
    · by_cases h1 : SubStr " mph" s
      · exact ⟨_, pw_mph h1⟩
      · exact ⟨_, pw_kmh h1 h⟩
    · by_cases h1 : SubStr " mph" s
      · exact ⟨_, pw_mph h1⟩
      · by_cases h2 : SubStr "kmh" s
        · exact ⟨_, pw_kmh h1 h2⟩
        · exact ⟨_, pw_kmph h1 h2 h⟩

/-- Witness for C2: the kmh branch evaluated at `"10 kmh"`. -/
theorem c2_parse_windspeed_spec_witness :
    parse_windspeed "10 kmh" = .ok (splitHead "10 kmh" " kmh", "wmoUnit:km_h-1") :=
  (c2_parse_windspeed_spec "10 kmh").2.2.1
    (fun h => absurd ((subStr_iff " mph" "10 kmh").mp h) (by decide))
    ((subStr_iff "kmh" "10 kmh").mpr (by decide))

/-- C9: the unit tokens are classified in the fixed order `" mph"`, then
`"kmh"`, then `"kmph"`: an input containing both `" mph"` and `"kmh"` gets
the mph classification, and an input containing both `"kmh"` and `"kmph"`
(and no `" mph"`) gets the kmh classification. -/
theorem c9_precedence (s : String) :
    (SubStr " mph" s → SubStr "kmh" s →
      parse_windspeed s = .ok (splitHead s " mph", "mph"))
    ∧ (¬ SubStr " mph" s → SubStr "kmh" s → SubStr "kmph" s →
      parse_windspeed s = .ok (splitHead s " kmh", "wmoUnit:km_h-1")) :=
  ⟨fun h _ => pw_mph h, fun h1 h2 _ => pw_kmh h1 h2⟩

/-- Witness for C9: both precedence branches at concrete inputs. -/
theorem c9_precedence_witness :
    parse_windspeed "3 mph kmh" = .ok (splitHead "3 mph kmh" " mph", "mph")
    ∧ parse_windspeed "10 kmh kmph"
        = .ok (splitHead "10 kmh kmph" " kmh", "wmoUnit:km_h-1") :=
  ⟨(c9_precedence "3 mph kmh").1
      ((subStr_iff " mph" "3 mph kmh").mpr (by decide))
      ((subStr_iff "kmh" "3 mph kmh").mpr (by decide)),
    (c9_precedence "10 kmh kmph").2
      (fun h => absurd ((subStr_iff " mph" "10 kmh kmph").mp h) (by decide))
      ((subStr_iff "kmh" "10 kmh kmph").mpr (by decide))
      ((subStr_iff "kmph" "10 kmh kmph").mpr (by decide))⟩

/-- C10: the paired-sequence guard of `parse_elev` is asymmetric.  A Series
elevation with a scalar unit code fails with the explicit both-must-be-Series
error; a scalar elevation with a Series unit code bypasses that guard, the
Series flows unchanged out of the shape stage, and `parse_elev` hands it to
the unit-code comparison stage. -/
theorem c10_elev_shape_asymmetry (xs : List ℚ) (u : String) (x : ℚ)
    (us : List String) :
    elevShape (.series xs) (.scalar u) = .error .bothMustBeSeries
    ∧ elevShape (.scalar x) (.series us) = .ok (x, .series us)
    ∧ parse_elev (.scalar x) (.series us) = elevConvert x (.series us) :=
  ⟨rfl, rfl, rfl⟩

/-- C3: `analyze_obs` at the failing input.  A group carrying `tempF` (and
even both guarded precipitation columns) but no `windSpeedInt` column hits
the unconditional `obs_df["windSpeedInt"]` of the last source line and
raises `KeyError` instead of omitting `mean_wind`; with `windSpeedInt`
present, the two guarded precipitation columns are omitted silently and a
summary is produced. -/
theorem c3_analyze_obs_missing_wind :
    analyze_obs ⟨[10, 40], some [0, 0], some [50], none⟩
        = .error (.keyError "windSpeedInt")
    ∧ analyze_obs ⟨[33], none, none, some [4, 6]⟩
        = .ok ⟨false, none, none, none, 5⟩ := by
  constructor
  · rfl
  · have h1 : meanQ [4, 6] = ((5 : ℤ) : ℚ) := by
      simp [meanQ]
      norm_num
    simp only [analyze_obs, listMax?, listMin?, h1]
    norm_num [truncQ]

/-- C4: the observation assembler's `tempF` construction converts via
`F = C * 9/5 + 32` exactly when the default column name is used and all
unit codes equal `"wmoUnit:degC"` or all equal `"C"`; in every other case
(mixed codes included) the values are copied unchanged, and a non-default
column name always copies. -/
theorem c4_tempF_col (obs_tcol : String) (tvals : List ℚ)
    (unitCodes : List String) :
    tempF_col obs_tcol tvals unitCodes =
      if obs_tcol = "temperature.value"
          ∧ ((∀ u ∈ unitCodes, u = "wmoUnit:degC")
            ∨ (∀ u ∈ unitCodes, u = "C")) then
        tvals.map fun c => c * (9/5) + 32
      else tvals := by
  by_cases h1 : obs_tcol = "temperature.value"
  · by_cases h2 : (∀ u ∈ unitCodes, u = "wmoUnit:degC")
        ∨ (∀ u ∈ unitCodes, u = "C")
    · have hb : ((unitCodes.all fun u => decide (u = "wmoUnit:degC"))
          || unitCodes.all fun u => decide (u = "C")) = true := by
        simp only [Bool.or_eq_true, List.all_eq_true, decide_eq_true_eq]
        exact h2
      rw [if_pos ⟨h1, h2⟩]
      simp only [tempF_col, if_pos h1, hb, if_true]
    · have hb : ¬ (((unitCodes.all fun u => decide (u = "wmoUnit:degC"))
          || unitCodes.all fun u => decide (u = "C")) = true) := by
        simp only [Bool.or_eq_true, List.all_eq_true, decide_eq_true_eq]
        exact h2
      rw [if_neg (fun hh => h2 hh.2)]
      simp only [tempF_col, if_pos h1, if_neg hb]
  · rw [if_neg (fun hh => h1 hh.1)]
    simp only [tempF_col, if_neg h1]

/-- C5: the single-station assertion of `make_obs_df`: more than one
distinct station value aborts with `MultiStationViolation` and no table is
returned, while exactly one distinct value passes the check and the build
completes. -/
theorem c5_single_station (obs_tcol : String) (b : ObsBatch) :
    (1 < b.stations.dedup.length →
      make_obs_df_core obs_tcol b = .error .multiStationViolation)
    ∧ (b.stations.dedup.length = 1 →
      make_obs_df_core obs_tcol b
        = .ok (tempF_col obs_tcol b.tempVals b.tempUnits)) := by
  constructor
  · intro h
    simp only [make_obs_df_core]
    rw [if_neg (by omega)]
  · intro h
    simp only [make_obs_df_core]
    rw [if_pos h]

/-- Witness for C5: two stations in one batch fail, one station passes. -/
theorem c5_single_station_witness :
    make_obs_df_core "temperature.value" ⟨["KMTN1", "KMTN2"], [], []⟩
        = .error .multiStationViolation
    ∧ make_obs_df_core "temperature.value" ⟨["KMTN1", "KMTN1"], [], []⟩
        = .ok (tempF_col "temperature.value" [] []) :=
  ⟨(c5_single_station "temperature.value" ⟨["KMTN1", "KMTN2"], [], []⟩).1
      (by decide),
    (c5_single_station "temperature.value" ⟨["KMTN1", "KMTN1"], [], []⟩).2
      (by decide)⟩

/-- C6: for a group with a nonempty temperature column (and a wind column,
so the summary is produced at all), the `cycle` flag is true exactly when
the maximum temperature exceeds 32 and the minimum is below 32. -/
theorem c6_cycle (g : ObsGroup) (M m : ℚ) (ws : List ℚ)
    (hM : listMax? g.tempF = some M) (hm : listMin? g.tempF = some m)
    (hw : g.windSpeedInt = some ws) :
    ∃ s, analyze_obs g = .ok s ∧ (s.cycle = true ↔ (32 < M ∧ m < 32)) := by
  have h : analyze_obs g = .ok
      ⟨decide (M > 32) && decide (m < 32),
        g.precipLast3h.map List.sum,
        (g.precipLast3h.map List.sum).map (fun x => decide (x < 1/100)),
        g.probPrecip.map (fun xs => (listMax? xs).getD 0),
        truncQ (meanQ ws)⟩ := by
    simp only [analyze_obs, hM, hm, hw]
  exact ⟨_, h, by simp⟩

/-- Witness for C6: a day-bucket spanning −5°F to 40°F cycles. -/
theorem c6_cycle_witness :
    ∃ s, analyze_obs ⟨[-5, 40], none, none, some [0]⟩ = .ok s
      ∧ (s.cycle = true ↔ (32 < (40 : ℚ) ∧ (-5 : ℚ) < 32)) :=
  c6_cycle ⟨[-5, 40], none, none, some [0]⟩ 40 (-5) [0]
    (by simp [listMax?, max_def]; norm_num)
    (by simp [listMin?, min_def]; norm_num)
    rfl

theorem projRow_idem (cs keep : List String) (r : List Val) :
    projRow keep keep (projRow cs keep r) = projRow cs keep r := by
  show projRow keep keep (keep.map fun c => ((r.get? (idxOf c cs)).getD .null))
      = keep.map fun c => ((r.get? (idxOf c cs)).getD .null)
  exact projRow_map_self keep _

/-- C7: `reduce_obs` is idempotent on any table carrying `station` and
`timestamp` columns: its output passes the key check again and is a fixed
point — same columns in the same order, unchanged rows. -/
theorem c7_reduce_obs_idem (t : Table)
    (hs : "station" ∈ t.cols) (hts : "timestamp" ∈ t.cols) :
    ∃ t2, reduce_obs t = .ok t2 ∧ reduce_obs t2 = .ok t2 := by
  have hg : ((keep_cols t.cols).all fun c => memB c t.cols) = true :=
    (reduce_guard t.cols).mpr ⟨hs, hts⟩
  refine ⟨⟨keep_cols t.cols, t.rows.map (projRow t.cols (keep_cols t.cols))⟩,
    ?_, ?_⟩
  · simp only [reduce_obs]
    rw [if_pos hg]
  · have hg2 : ((keep_cols (keep_cols t.cols)).all
        fun c => memB c (keep_cols t.cols)) = true := by
      rw [keep_cols_fixed, List.all_eq_true]
      intro c hc
      exact (memB_iff c (keep_cols t.cols)).mpr hc
    simp only [reduce_obs]
    rw [if_pos hg2, keep_cols_fixed, List.map_map]
    have hrows : ∀ r ∈ t.rows,
        (projRow (keep_cols t.cols) (keep_cols t.cols)
            ∘ projRow t.cols (keep_cols t.cols)) r
          = projRow t.cols (keep_cols t.cols) r :=
      fun r _ => projRow_idem t.cols (keep_cols t.cols) r
    rw [List.map_congr_left hrows]

/-- Witness for C7: a concrete four-column observation table. -/
theorem c7_reduce_obs_idem_witness :
    ∃ t2, reduce_obs
        ⟨["station", "timestamp", "temperature.value", "textDescription"],
          [[.str "STN", .str "2024-01-01T00:00:00Z", .num 5, .str "Clear"]]⟩
        = .ok t2
      ∧ reduce_obs t2 = .ok t2 :=
  c7_reduce_obs_idem
    ⟨["station", "timestamp", "temperature.value", "textDescription"],
      [[.str "STN", .str "2024-01-01T00:00:00Z", .num 5, .str "Clear"]]⟩
    (by decide) (by decide)

/-- C8: `reduce_obs` requires `station` and `timestamp`: lacking either
column, the projection fails with the key-lookup error; with both present
it always returns the projected table. -/
theorem c8_reduce_obs_keys (t : Table) :
    (("station" ∉ t.cols ∨ "timestamp" ∉ t.cols) →
      reduce_obs t = .error .keyError)
    ∧ ("station" ∈ t.cols → "timestamp" ∈ t.cols →
      reduce_obs t
        = .ok ⟨keep_cols t.cols, t.rows.map (projRow t.cols (keep_cols t.cols))⟩) := by
  constructor
  · intro h
    have hg : ¬ (((keep_cols t.cols).all fun c => memB c t.cols) = true) := by
      rw [reduce_guard]
      rcases h with h | h
      · exact fun hh => h hh.1
      · exact fun hh => h hh.2
    simp only [reduce_obs]
    rw [if_neg hg]
  · intro h1 h2
    have hg := (reduce_guard t.cols).mpr ⟨h1, h2⟩
    simp only [reduce_obs]
    rw [if_pos hg]

/-- Witness for C8: a table without `station` fails; a table with both key
columns projects. -/
theorem c8_reduce_obs_keys_witness :
    reduce_obs ⟨["timestamp", "temperature.value"], []⟩ = .error .keyError
    ∧ reduce_obs ⟨["station", "timestamp", "temperature.value"],
        [[.str "STN", .str "2024-01-01T00:00:00Z", .num 5]]⟩
      = .ok ⟨keep_cols ["station", "timestamp", "temperature.value"],
          [[.str "STN", .str "2024-01-01T00:00:00Z", .num 5]].map
            (projRow ["station", "timestamp", "temperature.value"]
              (keep_cols ["station", "timestamp", "temperature.value"]))⟩ :=
  ⟨(c8_reduce_obs_keys ⟨["timestamp", "temperature.value"], []⟩).1
      (Or.inl (by decide)),
    (c8_reduce_obs_keys ⟨["station", "timestamp", "temperature.value"],
        [[.str "STN", .str "2024-01-01T00:00:00Z", .num 5]]⟩).2
      (by decide) (by decide)⟩

end Corncast
